import Mathlib

/-!
Verification of the threat-model transformation core of the
elevation-of-privilege repository: the Threat Dragon document model,
the diagram-to-JointJS rendering adapter
(`apps/client/src/components/model/model.tsx`), the threat
aggregation and export handlers (`apps/server/src/endpoints.ts`) and
the shared string utilities (`packages/shared/src/utils/utils.ts`),
shallowly embedded as total Lean functions.

JavaScript numbers are modelled as rationals, optionally absent fields
as `Option`, JS objects used as dynamic attribute bags as
insertion-ordered association lists over a small JSON value grammar,
and code paths on which the (strict-mode) JavaScript would throw as
`none` / `Except.error`.
-/

/-! ## Dynamic attribute values (`Record<string, unknown>` bags) -/

/-- A JSON-ish runtime value, as stored in a cell's `attrs` bag.
Arrays are left out of the modelled grammar: the attribute bags of
Threat Dragon documents hold nested records of strings, numbers,
booleans and null. -/
inductive JValue where
  | vStr (s : String)
  | vNum (q : Rat)
  | vBool (b : Bool)
  | vNull
  | vObj (fields : List (String × JValue))

/-- A JS object used as a dynamic bag: insertion-ordered association list. -/
abbrev JAttrs := List (String × JValue)

/-- Property read `o[k]`: the first binding of `k`, if any. -/
def jLookup (o : JAttrs) (k : String) : Option JValue :=
  match o with
  | [] => none
  | (k', v) :: rest => if k' = k then some v else jLookup rest k

/-- Property write `o[k] = v`: replaces the existing binding in place
(keeping its position), else appends a new binding. -/
def jSet (o : JAttrs) (k : String) (v : JValue) : JAttrs :=
  match o with
  | [] => [(k, v)]
  | (k', v') :: rest => if k' = k then (k, v) :: rest else (k', v') :: jSet rest k v

/-- Reads `o[k]?.text` when it is a string, i.e. the JS pattern
`(o as { k?: { text?: unknown } }).k?.text` followed by a
`typeof ... === 'string'` check. -/
def jStrAt (o : JAttrs) (k : String) : Option String :=
  match jLookup o k with
  | some (JValue.vObj inner) =>
    match jLookup inner "text" with
    | some (JValue.vStr s) => some s
    | _ => none
  | _ => none

/-! ## String helpers (shared utils and JS built-ins) -/

/-- One pass of `text.replace(/[![\]()]/gm, '\\$&')`: each of the five
special characters is prefixed with a backslash. -/
def escapeSpecialList : List Char → List Char
  | [] => []
  | c :: cs =>
    (if c = '!' ∨ c = '[' ∨ c = ']' ∨ c = '(' ∨ c = ')' then ['\\', c] else [c])
      ++ escapeSpecialList cs

/-- Replaces every occurrence of the character `c` by the string `r`
(the JS `String.prototype.replace` with a global single-character
pattern, and `replaceAll` with a single-character pattern). -/
def replaceCharWithList (c : Char) (r : List Char) : List Char → List Char
  | [] => []
  | x :: xs => (if x = c then r else [x]) ++ replaceCharWithList c r xs

/-- `escapeMarkdownText` from `packages/shared/src/utils/utils.ts`:
backslash-escape `!`, `[`, `]`, `(`, `)`, then replace `<` by its
entity and `>` by its entity; `*` and `_` are deliberately left alone. -/
def escapeMarkdownText (s : String) : String :=
  String.mk
    (replaceCharWithList '>' "&gt;".data
      (replaceCharWithList '<' "&lt;".data
        (escapeSpecialList s.data)))

/-- `s.replace(c, r)` with a non-global single-character pattern:
only the first occurrence is replaced. -/
def replaceFirstCharList (c r : Char) : List Char → List Char
  | [] => []
  | x :: xs => if x = c then r :: xs else x :: replaceFirstCharList c r xs

/-- JS `String.prototype.replace` with a single-character non-global
pattern and a single-character replacement. -/
def jsReplaceFirstChar (c r : Char) (s : String) : String :=
  String.mk (replaceFirstCharList c r s.data)

/-- JS `replaceAll` with a single-character pattern. -/
def jsReplaceAllChar (c : Char) (r : String) (s : String) : String :=
  String.mk (replaceCharWithList c r.data s.data)

/-- A character of the JS whitespace class, as relevant to `trim` and
`parseInt` on the ASCII inputs handled here. -/
def isJsSpace (c : Char) : Bool :=
  c = ' ' ∨ c = '\t' ∨ c = '\n' ∨ c = '\r'

/-- JS `String.prototype.trim`: strip leading and trailing whitespace. -/
def jsTrim (s : String) : String :=
  String.mk (((s.data.dropWhile isJsSpace).reverse.dropWhile isJsSpace).reverse)

/-- Whether the first list is a prefix of the second (used to model
`String.prototype.startsWith`). -/
def isPrefixList : List Char → List Char → Bool
  | [], _ => true
  | _ :: _, [] => false
  | c :: cs, d :: ds => c == d && isPrefixList cs ds

/-- JS `s.startsWith(pre)`. -/
def jsStartsWith (s pre : String) : Bool :=
  isPrefixList pre.data s.data

/-- The regex replacement `.replace(/(\r|\n)+/gm, ' ')`: every maximal
run of carriage returns and newlines collapses to a single space. -/
def collapseNewlinesList : List Char → List Char
  | [] => []
  | [c] => if c = '\r' ∨ c = '\n' then [' '] else [c]
  | c₁ :: c₂ :: rest =>
    if c₁ = '\r' ∨ c₁ = '\n' then
      if c₂ = '\r' ∨ c₂ = '\n' then collapseNewlinesList (c₂ :: rest)
      else ' ' :: collapseNewlinesList (c₂ :: rest)
    else c₁ :: collapseNewlinesList (c₂ :: rest)

/-- String form of the newline-collapsing regex replacement. -/
def collapseNewlines (s : String) : String :=
  String.mk (collapseNewlinesList s.data)

/-- A single hexadecimal digit, as accepted by `parseInt` with an `0x` prefix. -/
def isHexDigitChar (c : Char) : Bool :=
  c.isDigit ∨ ('a' ≤ c ∧ c ≤ 'f') ∨ ('A' ≤ c ∧ c ≤ 'F')

/-- Numeric value of a hexadecimal digit. -/
def hexDigitVal (c : Char) : Nat :=
  if c.isDigit then c.toNat - 48
  else if 'a' ≤ c then c.toNat - 87
  else c.toNat - 55

/-- Value of a list of decimal digits. -/
def decDigitsVal (l : List Char) : Nat :=
  l.foldl (fun a c => a * 10 + (c.toNat - 48)) 0

/-- Value of a list of hexadecimal digits. -/
def hexDigitsVal (l : List Char) : Nat :=
  l.foldl (fun a c => a * 16 + hexDigitVal c) 0

/-- `Number.parseInt` with no explicit radix: trim, optional sign,
radix 16 after an `0x`/`0X` prefix and radix 10 otherwise, reading the
longest digit prefix; `none` models `NaN` (no digits at all). -/
def jsParseInt (s : String) : Option Int :=
  let t := (jsTrim s).data
  let signAndRest : Int × List Char :=
    match t with
    | '-' :: r => (-1, r)
    | '+' :: r => (1, r)
    | r => (1, r)
  let sign := signAndRest.1
  match signAndRest.2 with
  | '0' :: 'x' :: r =>
    let ds := r.takeWhile isHexDigitChar
    if ds = [] then none else some (sign * (hexDigitsVal ds : Int))
  | '0' :: 'X' :: r =>
    let ds := r.takeWhile isHexDigitChar
    if ds = [] then none else some (sign * (hexDigitsVal ds : Int))
  | r =>
    let ds := r.takeWhile Char.isDigit
    if ds = [] then none else some (sign * (decDigitsVal ds : Int))

/-! ## Document model (`ThreatDragonModel` types, shared package) -/

/-- A threat record as stored in a document cell's `data.threats` and as
produced by the export pipeline (`ThreatV2`).  Fields that JS code may
leave `undefined` are `Option`; `type` is the methodology category code,
`owner` and `game` are added by this repository's aggregation. -/
structure ThreatV2 where
  id : Option String
  title : Option String
  status : Option String
  severity : Option String
  type : Option String
  description : Option String
  mitigation : Option String
  modelType : Option String
  owner : Option String
  game : Option String
deriving DecidableEq

/-- Common point type (positions and vertices), JS numbers as rationals. -/
structure PointV2 where
  x : Rat
  y : Rat
deriving DecidableEq

/-- Node geometry `size{width,height}`. -/
structure SizeV2 where
  width : Rat
  height : Rat
deriving DecidableEq

/-- Source/target endpoint of an edge cell (`EdgeEndV2`): either a
reference `{cell, port?}`, a free point `{x, y}`, or malformed. -/
structure EdgeEndV2 where
  cell : Option String
  port : Option String
  x : Option Rat
  y : Option Rat

/-- Placement metadata of an edge label (`position.distance`). -/
structure LabelPosV2 where
  distance : Option Rat

/-- Edge label as seen in V2 models (`EdgeLabelV2`): a dynamic `attrs`
bag plus optional placement. -/
structure EdgeLabelV2 where
  attrs : Option JAttrs
  position : Option LabelPosV2

/-- The semantic payload of a cell (`CellDataV2`).  The TS interface
declares `type`, `name` and `hasOpenThreats` required, but the code is
defensive (`typeof` checks, `??` and `!!` coercions), so every field is
modelled optional; the flow-specific flags of `FlowDataV2` are inlined. -/
structure CellDataV2 where
  type : Option String
  name : Option String
  description : Option String
  outOfScope : Option Bool
  reasonOutOfScope : Option String
  hasOpenThreats : Option Bool
  isTrustBoundary : Option Bool
  threats : Option (List ThreatV2)
  isBidirectional : Option Bool
  isEncrypted : Option Bool
  isPublicNetwork : Option Bool
  protocol : Option String

/-- One diagram element (`CellV2`): tagged by shape of its geometry
(node: `position`+`size`; edge: `source`/`target`), not by an explicit
discriminant. -/
structure CellV2 where
  id : String
  shape : String
  zIndex : Option Rat
  attrs : Option JAttrs
  data : Option CellDataV2
  visible : Option Bool
  position : Option PointV2
  size : Option SizeV2
  source : Option EdgeEndV2
  target : Option EdgeEndV2
  vertices : Option (List PointV2)
  connector : Option String
  labels : Option (List EdgeLabelV2)

/-- A diagram (`DiagramV2`); `cells` is declared required but accessed
as `diagram.cells?` / `diagram.cells ?? []` throughout, so optional here. -/
structure DiagramV2 where
  id : Rat
  title : String
  diagramType : String
  cells : Option (List CellV2)

/-- Threat model project meta-data (`ThreatDragonSummaryV2`). -/
structure SummaryV2 where
  title : String
  owner : Option String
  description : Option String

/-- Threat model definition (`ThreatDragonDetailV2`). -/
structure DetailV2 where
  contributors : List String
  diagrams : List DiagramV2
  diagramTop : Rat
  threatTop : Rat
  reviewer : String

/-- The persisted architecture-diagram document (`ThreatDragonModelV2`). -/
structure ThreatDragonModelV2 where
  version : String
  summary : SummaryV2
  detail : DetailV2

/-! ## Game-side state consumed by the export endpoints -/

/-- `ModelType` enum from the shared constants. -/
inductive ModelType where
  | THREAT_DRAGON
  | PRIVACY_ENHANCED
  | IMAGE
deriving DecidableEq

/-- A partial threat record of the gameplay identified-threats index:
title/description/mitigation/severity/type/owner (a player-index
string) and an optional id, all possibly absent. -/
structure IdentifiedThreat where
  id : Option String
  title : Option String
  description : Option String
  mitigation : Option String
  severity : Option String
  type : Option String
  owner : Option String
deriving DecidableEq

/-- The gameplay identified-threats index `G.identifiedThreats`: a
sparse array indexed by diagram position; each slot is `null`/absent or
an insertion-ordered object mapping component-cell-id to an
insertion-ordered object of partial threat records.  JS `forEach`
skips holes and the code skips `null` slots, so both are `none`; the
inner objects are association lists iterated in insertion order
(`Object.keys` / `Object.values` on such objects follow it). -/
abbrev IdentifiedThreatsIndex := List (Option (List (String × List IdentifiedThreat)))

/-- The slice of the boardgame.io game state `G` read by the export
endpoints.  `gameMode` is a string enum value. -/
structure GameState where
  modelType : ModelType
  gameMode : String
  identifiedThreats : IdentifiedThreatsIndex

/-- One player's metadata entry (`metadata.players[i]`); `name` may be
absent, matching the `?.name` access. -/
structure PlayerMeta where
  name : Option String
deriving DecidableEq

/-- The match metadata consumed here: the player roster indexed by
player id. -/
structure MatchData where
  players : List PlayerMeta
deriving DecidableEq

/-- What `gameServer.db.setModel` stores for a match: a structured
Threat Dragon document, or an `{extension}` image placeholder; a match
may also have `null` stored, hence `Option StoredModel` at use sites.
The JS discriminates with `'extension' in model`. -/
inductive StoredModel where
  | image (extension : String)
  | doc (model : ThreatDragonModelV2)

/-- Result of `db.fetch(matchID, {state, metadata, model})`. -/
structure FetchedGame where
  state : GameState
  metadata : MatchData
  model : Option StoredModel

/-- The external card/suit helpers from the shared package that the
endpoints call but whose source is outside `src/`: `isSuit` and
`getSuitDisplayName(gameMode, suit)`.  They are passed as an
environment; no claim depends on their behaviour. -/
structure SuitEnv where
  isSuit : String → Bool
  getSuitDisplayName : String → Option String → Option String

/-- An HTTP error surfaced with `ctx.throw(message, status)` (or an
uncaught exception, surfaced by koa as status 500). -/
structure HttpError where
  status : Nat
  message : String
deriving DecidableEq

/-! ## ModelAdapter (`apps/client/src/components/model/model.tsx`) -/

/-- A JointJS edge endpoint (`JointEdgeEnd`): `{id, port?}`, `{x, y}`,
or the empty object (renderer treats it as unattached). -/
inductive JointEdgeEnd where
  | cellRef (id : String) (port : Option String)
  | point (x y : Rat)
  | emptyEnd
deriving DecidableEq

/-- A JointJS edge label (`JointLabel`): placement along the edge and
the resolved text (`attrs.text.text` in the emitted JSON). -/
structure JointLabel where
  position : Rat
  text : String
deriving DecidableEq

/-- A JointJS node record (`JointNodeCell`): base fields plus geometry
and the domain flags. -/
structure JointNodeCell where
  id : String
  type : String
  z : Rat
  attrs : JAttrs
  position : PointV2
  size : SizeV2
  description : String
  hasOpenThreats : Bool
  outOfScope : Bool
  reasonOutOfScope : String
  isTrustBoundary : Bool
  threats : List ThreatV2
  visible : Option Bool

/-- A JointJS edge record (`JointEdgeCell`): base fields plus mapped
endpoints, vertices, smoothing, labels, the domain flags, and the
flow-specific extras (set only for `tm.Flow` data). -/
structure JointEdgeCell where
  id : String
  type : String
  z : Rat
  attrs : JAttrs
  source : JointEdgeEnd
  target : JointEdgeEnd
  vertices : List PointV2
  smooth : Option Bool
  labels : Option (List JointLabel)
  description : String
  hasOpenThreats : Bool
  outOfScope : Bool
  reasonOutOfScope : String
  isTrustBoundary : Bool
  threats : List ThreatV2
  visible : Option Bool
  isBidirectional : Option Bool
  isEncrypted : Option Bool
  isPublicNetwork : Option Bool
  protocol : Option String

/-- A JointJS-compatible cell: node or edge (`JointCell`). -/
inductive JointCell where
  | node (n : JointNodeCell)
  | edge (e : JointEdgeCell)

/-- The rendering graph (`{cells: JointCell[]}`). -/
structure JointGraph where
  cells : List JointCell

/-- `mapToJointType`: prefer the semantic `tm.`-prefixed `data.type`
(remapping `tm.BoundaryBox` to `tm.Boundary` and `tm.Text` to
`tm.Process`), else fall back to the fixed shape table. -/
def mapToJointType (shape : String) (dataType : Option String) : String :=
  match dataType with
  | some dt =>
    if jsStartsWith dt "tm." then
      if dt = "tm.BoundaryBox" then "tm.Boundary"
      else if dt = "tm.Text" then "tm.Process"
      else dt
    else mapShapeFallback shape
  | none => mapShapeFallback shape
where
  mapShapeFallback (shape : String) : String :=
    if shape = "process" then "tm.Process"
    else if shape = "actor" then "tm.Actor"
    else if shape = "store" then "tm.Store"
    else if shape = "flow" then "tm.Flow"
    else if shape = "trust-boundary-curve" ∨ shape = "trust-boundary-box" then "tm.Boundary"
    else "tm.Process"

/-- `getV2CellName`: prefer a non-blank `data.name`, else a non-blank
string `attrs.text.text`, else a non-blank string `attrs.label.text`,
else the empty string.  The winning candidate is returned untrimmed. -/
def getV2CellName (cell : CellV2) : String :=
  let fromAttrs :=
    match cell.attrs with
    | none => ""
    | some a =>
      match jStrAt a "text" with
      | some t1 =>
        if jsTrim t1 ≠ "" then t1
        else
          match jStrAt a "label" with
          | some t2 => if jsTrim t2 ≠ "" then t2 else ""
          | none => ""
      | none =>
        match jStrAt a "label" with
        | some t2 => if jsTrim t2 ≠ "" then t2 else ""
        | none => ""
  match cell.data.bind (fun d => d.name) with
  | some n => if jsTrim n ≠ "" then n else fromAttrs
  | none => fromAttrs

/-- `normalizeAttrs`: shallow-copy `attrs`, and when the resolved name
is non-empty ensure `attrs.text.text` holds a label, writing the name
only if the current `text.text` value is not a string.  When
`attrs.text` is a primitive (non-null, non-object) value the strict-mode
JS assignment `textObj.text = name` throws a `TypeError`; that path is
`Except.error ()`. -/
def normalizeAttrs (cell : CellV2) : Except Unit JAttrs :=
  let attrs := cell.attrs.getD []
  let name := getV2CellName cell
  if name = "" then Except.ok attrs
  else
    match jLookup attrs "text" with
    | some (JValue.vObj o) =>
      let keep :=
        match jLookup o "text" with
        | some (JValue.vStr _) => true
        | _ => false
      let o' := if keep then o else jSet o "text" (JValue.vStr name)
      Except.ok (jSet attrs "text" (JValue.vObj o'))
    | some JValue.vNull => Except.ok (jSet attrs "text" (JValue.vObj [("text", JValue.vStr name)]))
    | none => Except.ok (jSet attrs "text" (JValue.vObj [("text", JValue.vStr name)]))
    | some _ => Except.error ()

/-- `mapEdgeEnd`: `{x,y}` point endpoints first, then `{cell, port?}`
references, anything else the empty endpoint. -/
def mapEdgeEnd (e : Option EdgeEndV2) : JointEdgeEnd :=
  match e with
  | none => JointEdgeEnd.emptyEnd
  | some en =>
    match en.x, en.y with
    | some x, some y => JointEdgeEnd.point x y
    | _, _ =>
      match en.cell with
      | some cid => JointEdgeEnd.cellRef cid en.port
      | none => JointEdgeEnd.emptyEnd

/-- `mapEdgeLabels`: per source label, prefer a non-blank string
`attrs.labelText.text`, fall back to a string `attrs.label.text`; skip
labels whose resolved text is blank; keep `position.distance`
(default `0.5`). -/
def mapEdgeLabels (cell : CellV2) : List JointLabel :=
  (cell.labels.getD []).filterMap fun l =>
    match l.attrs with
    | none => none
    | some attrs =>
      let labelText := jStrAt attrs "labelText"
      let fallback := jStrAt attrs "label"
      let text :=
        match labelText with
        | some s => if jsTrim s ≠ "" then s else fallback.getD ""
        | none => fallback.getD ""
      if jsTrim text = "" then none
      else some ⟨((l.position.bind (fun p => p.distance)).getD ((1 : Rat) / 2)), text⟩

/-- `v2CellToJointCell`: classify a cell.  Node geometry (`position`
and `size`) wins; else edge endpoints (`source` or `target`); else the
cell is unrepresentable and dropped (`ok none`).  The error case is the
`TypeError` that `normalizeAttrs` can raise. -/
def v2CellToJointCell (cell : CellV2) : Except Unit (Option JointCell) :=
  match normalizeAttrs cell with
  | Except.error e => Except.error e
  | Except.ok attrs =>
    let ty := mapToJointType cell.shape (cell.data.bind (fun d => d.type))
    let z := cell.zIndex.getD 0
    match cell.position, cell.size with
    | some p, some s =>
      Except.ok (some (JointCell.node
        { id := cell.id
          type := ty
          z := z
          attrs := attrs
          position := ⟨p.x, p.y⟩
          size := ⟨s.width, s.height⟩
          description := (cell.data.bind (fun d => d.description)).getD ""
          hasOpenThreats := (cell.data.bind (fun d => d.hasOpenThreats)).getD false
          outOfScope := (cell.data.bind (fun d => d.outOfScope)).getD false
          reasonOutOfScope := (cell.data.bind (fun d => d.reasonOutOfScope)).getD ""
          isTrustBoundary := (cell.data.bind (fun d => d.isTrustBoundary)).getD false
          threats := (cell.data.bind (fun d => d.threats)).getD []
          visible := cell.visible }))
    | _, _ =>
      if cell.source.isSome || cell.target.isSome then
        let ls := mapEdgeLabels cell
        let isFlow := cell.data.bind (fun d => d.type) = some "tm.Flow"
        Except.ok (some (JointCell.edge
          { id := cell.id
            type := ty
            z := z
            attrs := attrs
            source := mapEdgeEnd cell.source
            target := mapEdgeEnd cell.target
            vertices := (cell.vertices.getD []).map (fun v => ⟨v.x, v.y⟩)
            smooth := cell.connector.map (fun c => c = "smooth")
            labels := if ls.isEmpty then none else some ls
            description := (cell.data.bind (fun d => d.description)).getD ""
            hasOpenThreats := (cell.data.bind (fun d => d.hasOpenThreats)).getD false
            outOfScope := (cell.data.bind (fun d => d.outOfScope)).getD false
            reasonOutOfScope := (cell.data.bind (fun d => d.reasonOutOfScope)).getD ""
            isTrustBoundary := (cell.data.bind (fun d => d.isTrustBoundary)).getD false
            threats := (cell.data.bind (fun d => d.threats)).getD []
            visible := cell.visible
            isBidirectional := if isFlow then some ((cell.data.bind (fun d => d.isBidirectional)).getD false) else none
            isEncrypted := if isFlow then some ((cell.data.bind (fun d => d.isEncrypted)).getD false) else none
            isPublicNetwork := if isFlow then some ((cell.data.bind (fun d => d.isPublicNetwork)).getD false) else none
            protocol := if isFlow then some ((cell.data.bind (fun d => d.protocol)).getD "") else none }))
      else Except.ok none

/-- Sequentially maps `v2CellToJointCell` over the cells and filters
the `null` results, propagating the first JS exception. -/
def jointCellsOf : List CellV2 → Except Unit (List JointCell)
  | [] => Except.ok []
  | c :: cs =>
    match v2CellToJointCell c with
    | Except.error e => Except.error e
    | Except.ok none => jointCellsOf cs
    | Except.ok (some jc) => (jointCellsOf cs).map (fun rest => jc :: rest)

/-- `toJointGraphJson`: the rendering graph of a diagram. -/
def toJointGraphJson (diagram : DiagramV2) : Except Unit JointGraph :=
  (jointCellsOf (diagram.cells.getD [])).map (fun cs => ⟨cs⟩)

/-! ## ThreatAggregator and export handlers (`apps/server/src/endpoints.ts`) -/

/-- Modelled from the spec: the string-valued `GameMode` enum lives in
the shared package outside `src/`; only the three members named by
`getMethodologyName` matter here and no claim depends on their exact
string values, so each member is represented by its member name. -/
def GameModeEOP : String := "EOP"

/-- Modelled from the spec: see `GameModeEOP`. -/
def GameModeCORNUCOPIA : String := "CORNUCOPIA"

/-- Modelled from the spec: see `GameModeEOP`. -/
def GameModeCUMULUS : String := "CUMULUS"

/-- `getMethodologyName`: `EOP → STRIDE`, `CORNUCOPIA → Cornucopia`,
`CUMULUS → Cumulus`, anything else unresolved. -/
def getMethodologyName (gameMode : String) : Option String :=
  if gameMode = GameModeEOP then some "STRIDE"
  else if gameMode = GameModeCORNUCOPIA then some "Cornucopia"
  else if gameMode = GameModeCUMULUS then some "Cumulus"
  else none

/-- `metadata.players[Number.parseInt(idxStr)]?.name`: parse the
player-index string, index the roster (out-of-range, negative or `NaN`
indices find nothing), and read the optional name. -/
def lookupPlayerName (meta : MatchData) (idxStr : String) : Option String :=
  match jsParseInt idxStr with
  | none => none
  | some i => if i < 0 then none else meta.players[i.toNat]?.bind (fun p => p.name)

/-- The owner ternary used by both aggregation paths:
`t.owner !== undefined ? metadata.players[Number.parseInt(t.owner)]?.name : undefined`. -/
def resolveThreatOwner (meta : MatchData) (owner : Option String) : Option String :=
  match owner with
  | none => none
  | some o => lookupPlayerName meta o

/-- The threat record constructed by the model-download merge for one
gameplay threat (`existing.push({...})` in `downloadThreatDragonModel`):
`status` fixed to `Open`, `severity` defaulting to the empty string,
`modelType` from the methodology lookup, `type` from the external
suit-display-name helper, and the match id recorded in `game`. -/
def mergedThreatOf (env : SuitEnv) (st : GameState) (meta : MatchData) (matchID : String)
    (t : IdentifiedThreat) : ThreatV2 :=
  { description := some (t.description.getD "")
    mitigation := some (t.mitigation.getD "")
    modelType := getMethodologyName st.gameMode
    severity := some (t.severity.getD "")
    status := some "Open"
    title := some (t.title.getD "")
    type := env.getSuitDisplayName st.gameMode t.type
    owner := resolveThreatOwner meta t.owner
    id := t.id
    game := some matchID }

/-- The in-place update of one found cell: append the constructed
records to `data.threats` (`?? []`) and recompute `hasOpenThreats` as
`previous || existing.some(status === 'Open')` over the extended list.
When `cell.data` is absent the JS `cell.data.threats` access throws;
that path is `none`. -/
def mergeCell (env : SuitEnv) (st : GameState) (meta : MatchData) (matchID : String)
    (ts : List IdentifiedThreat) (c : CellV2) : Option CellV2 :=
  match c.data with
  | none => none
  | some d =>
    let existing := d.threats.getD [] ++ ts.map (mergedThreatOf env st meta matchID)
    some { c with data := some { d with
      threats := some existing,
      hasOpenThreats :=
        some (d.hasOpenThreats.getD false || existing.any (fun x => x.status == some "Open")) } }

/-- `diagram.cells?.find((c) => c.id === componentId)` followed by the
in-place cell update: rewrites the first cell whose id matches, leaves
the list unchanged when none does, and propagates the JS exception of
the update. -/
def updateFirstCellM (componentId : String) (f : CellV2 → Option CellV2) :
    List CellV2 → Option (List CellV2)
  | [] => some []
  | c :: cs =>
    if c.id = componentId then (f c).map (fun c' => c' :: cs)
    else (updateFirstCellM componentId f cs).map (fun cs' => c :: cs')

/-- `Object.keys(threatsForComponent).forEach(...)`: fold the
per-component updates over the diagram's cells in insertion order. -/
def applyComponents (env : SuitEnv) (st : GameState) (meta : MatchData) (matchID : String) :
    List (String × List IdentifiedThreat) → List CellV2 → Option (List CellV2)
  | [], cs => some cs
  | (componentId, ts) :: rest, cs =>
    match updateFirstCellM componentId (mergeCell env st meta matchID ts) cs with
    | none => none
    | some cs' => applyComponents env st meta matchID rest cs'

/-- Per-diagram merge: diagrams without a `cells` array are untouched
(every `cells?.find` misses). -/
def applyDiagram (env : SuitEnv) (st : GameState) (meta : MatchData) (matchID : String)
    (comps : List (String × List IdentifiedThreat)) (d : DiagramV2) : Option DiagramV2 :=
  match d.cells with
  | none => some d
  | some cs => (applyComponents env st meta matchID comps cs).map (fun cs' => { d with cells := some cs' })

/-- `state.G.identifiedThreats.forEach((threatsForComponent, diagramIdx) => ...)`:
walk the enumerated slots, skipping `null` slots and slots whose
diagram position no longer exists, updating the diagram in place. -/
def mergeSlots (env : SuitEnv) (st : GameState) (meta : MatchData) (matchID : String) :
    List (Nat × Option (List (String × List IdentifiedThreat))) → List DiagramV2 →
    Option (List DiagramV2)
  | [], ds => some ds
  | (_, none) :: rest, ds => mergeSlots env st meta matchID rest ds
  | (i, some comps) :: rest, ds =>
    match ds[i]? with
    | none => mergeSlots env st meta matchID rest ds
    | some d =>
      match applyDiagram env st meta matchID comps d with
      | none => none
      | some d' => mergeSlots env st meta matchID rest (ds.set i d')

/-- The merge step of `downloadThreatDragonModel` (endpoints.ts
lines 247-284), as the value the loaded document holds afterwards.
The JS mutates the fetched document object itself (`existing.push`,
`cell.data.threats = existing`, `cell.data.hasOpenThreats = ...`
through the `tdModel` alias), so after the handler the loaded document
and the response body are this merged value; `none` models the
handler throwing midway (missing `cell.data`). -/
def mergeIdentifiedThreats (env : SuitEnv) (st : GameState) (meta : MatchData) (matchID : String)
    (m : ThreatDragonModelV2) : Option ThreatDragonModelV2 :=
  (mergeSlots env st meta matchID st.identifiedThreats.enum m.detail.diagrams).map
    (fun ds' => { m with detail := { m.detail with diagrams := ds' } })

/-- The value held by the loaded (and served) document object after
`downloadThreatDragonModel` ran its merge: the merge is performed by
in-place mutation of the fetched model, so this is exactly the merged
value. -/
def modelAfterDownload (env : SuitEnv) (st : GameState) (meta : MatchData) (matchID : String)
    (m : ThreatDragonModelV2) : Option ThreatDragonModelV2 :=
  mergeIdentifiedThreats env st meta matchID m

/-- `isJsonModel`: the game's model type is a structured JSON kind. -/
def isJsonModelType (mt : ModelType) : Bool :=
  mt == ModelType.PRIVACY_ENHANCED || mt == ModelType.THREAT_DRAGON

/-- A successful Threat Dragon model download: attachment filename and
the (merged) document served as the body. -/
structure ModelDownload where
  filename : String
  body : ThreatDragonModelV2

/-- The `downloadThreatDragonModel` request handler: missing path
parameter and wrong stored-model kind are client errors raised before
any aggregation; an exception inside the merge surfaces as a koa 500.
`nowIso` stands for `new Date().toISOString()`. -/
def downloadThreatDragonModel (env : SuitEnv) (matchID : Option String) (game : FetchedGame)
    (nowIso : String) : Except HttpError ModelDownload :=
  match matchID with
  | none => Except.error ⟨400, "Missing required parameter matchID"⟩
  | some mid =>
    let st := game.state
    match game.model with
    | none => Except.error ⟨400, "Cannot download model if none is set, maybe the wrong model type has been set?"⟩
    | some (StoredModel.image _) => Except.error ⟨400, "Cannot download model if none is set, maybe the wrong model type has been set?"⟩
    | some (StoredModel.doc tdModel) =>
      if ¬ isJsonModelType st.modelType then
        Except.error ⟨400, "Cannot download model if none is set, maybe the wrong model type has been set?"⟩
      else
        match mergeIdentifiedThreats env st game.metadata mid tdModel with
        | none => Except.error ⟨500, "Internal Server Error"⟩
        | some merged =>
          let modelTitle := jsReplaceFirstChar ' ' '-' tdModel.summary.title
          let timestamp := jsReplaceFirstChar ':' '-' nowIso
          Except.ok ⟨modelTitle ++ "-" ++ timestamp ++ ".json", merged⟩

/-- One flattened gameplay threat pushed by `getThreats`: the spread of
the partial record with owner resolved, `status` forced to `NA` and the
documented per-field defaults (`severity` defaulting to `Low` here). -/
def flattenGameThreat (meta : MatchData) (t : IdentifiedThreat) : ThreatV2 :=
  { id := t.id
    title := some (t.title.getD "")
    status := some "NA"
    severity := some (t.severity.getD "Low")
    type := some (t.type.getD "")
    description := some (t.description.getD "")
    mitigation := some (t.mitigation.getD "")
    modelType := none
    owner := resolveThreatOwner meta t.owner
    game := none }

/-- The `data.threats` list of a cell as the server walk reads it
(`cell.data?.threats`, pushed only when a non-empty array, which equals
appending the list itself). -/
def cellThreats (c : CellV2) : List ThreatV2 :=
  match c.data with
  | some d => d.threats.getD []
  | none => []

/-- The `data.hasOpenThreats` flag of a cell under JS truthiness. -/
def cellHasOpen (c : CellV2) : Bool :=
  match c.data with
  | some d => d.hasOpenThreats.getD false
  | none => false

/-- The cell at diagram position `i`, cell position `j` of a document. -/
def cellAt (m : ThreatDragonModelV2) (i j : Nat) : Option CellV2 :=
  m.detail.diagrams[i]?.bind (fun d => (d.cells.getD [])[j]?)

/-- `getThreats`: the flattened threat list for the report — gameplay
threats first (skipping absent slots, walking components and their
threat records in insertion order), then, when a structured document is
supplied, every threat already embedded in its cells, unmodified. -/
def getThreats (st : GameState) (meta : MatchData) (model : Option ThreatDragonModelV2) :
    List ThreatV2 :=
  let gameThreats :=
    st.identifiedThreats.flatMap (fun slot =>
      match slot with
      | none => []
      | some comps => comps.flatMap (fun p => p.2.map (flattenGameThreat meta)))
  let modelThreats :=
    match model with
    | none => []
    | some m => m.detail.diagrams.flatMap (fun d => (d.cells.getD []).flatMap cellThreats)
  gameThreats ++ modelThreats

/-- A threat extended with the report category (`ThreatWithCategory`);
`category := none` models the absent property. -/
structure ThreatWithCategory where
  threat : ThreatV2
  category : Option String

/-- `enrichThreatWithCategory`: when `type` is a non-empty string, add
`category` (suit display name when `type` is a suit, else `type`
itself); otherwise leave the threat without a category. -/
def enrichThreatWithCategory (env : SuitEnv) (t : ThreatV2) (gameMode : String) :
    ThreatWithCategory :=
  match t.type with
  | some ty =>
    if ty ≠ "" then
      ⟨t, if env.isSuit ty then env.getSuitDisplayName gameMode (some ty) else some ty⟩
    else ⟨t, none⟩
  | none => ⟨t, none⟩

/-- The lines array built by `formatSingleThreat`: the numbered title
line (title trimmed, `No title given` only when the field is absent),
then the optional category / severity / author / description /
mitigation lines, the mitigation line suppressed for the exact
placeholder sentence. -/
def threatLines (t : ThreatWithCategory) (index : Nat) : List String :=
  let titleLine :=
    toString (index + 1) ++ ". **"
      ++ escapeMarkdownText ((t.threat.title.map jsTrim).getD "No title given") ++ "**"
  let ls := [titleLine]
  let ls :=
    match t.category with
    | some c => ls ++ ["    - *Category:* " ++ escapeMarkdownText c]
    | none => ls
  let ls :=
    match t.threat.severity with
    | some sv => ls ++ ["    - *Severity:* " ++ escapeMarkdownText sv]
    | none => ls
  let ls :=
    match t.threat.owner with
    | some ow => ls ++ ["    - *Author:* " ++ escapeMarkdownText ow]
    | none => ls
  let ls :=
    match t.threat.description with
    | some de => ls ++ ["    - *Description:* " ++ escapeMarkdownText (collapseNewlines de)]
    | none => ls
  let ls :=
    match t.threat.mitigation with
    | some mi =>
      if mi ≠ "No mitigation provided." then
        ls ++ ["    - *Mitigation:* " ++ escapeMarkdownText (collapseNewlines mi)]
      else ls
    | none => ls
  ls

/-- `formatSingleThreat`: one numbered Markdown block. -/
def formatSingleThreat (t : ThreatWithCategory) (index : Nat) : String :=
  String.intercalate "\n" (threatLines t index)

/-- `formatThreats`: the fixed report template — title line, underline,
blank line, then the numbered blocks in list order. -/
def formatThreats (threats : List ThreatWithCategory) (date : String) : String :=
  "Threats " ++ date ++ "\n=======\n\n"
    ++ String.intercalate "\n" (threats.enum.map (fun p => formatSingleThreat p.2 p.1))
    ++ "\n"

/-- A successful Markdown report download: attachment filename and body. -/
structure MarkdownDownload where
  filename : String
  body : String

/-- The `downloadThreatsMarkdownFile` request handler.  `nowIso` stands
for `new Date().toISOString()` and `dateLocale` for
`new Date().toLocaleString()`.  The filename slug is the trimmed
document title with each space replaced by a hyphen when a structured
JSON document exists, else the trimmed game-mode string with spaces
removed, else empty; the timestamp has every colon replaced by a
hyphen. -/
def downloadThreatsMarkdownFile (env : SuitEnv) (matchID : Option String) (game : FetchedGame)
    (nowIso : String) (dateLocale : String) : Except HttpError MarkdownDownload :=
  match matchID with
  | none => Except.error ⟨400, "Missing required parameter matchID"⟩
  | some _ =>
    let st := game.state
    let structuredModel : Option ThreatDragonModelV2 :=
      if isJsonModelType st.modelType then
        match game.model with
        | some (StoredModel.doc m) => some m
        | _ => none
      else none
    let threats := getThreats st game.metadata structuredModel
    let modelTitle :=
      match structuredModel with
      | some m => jsReplaceAllChar ' ' "-" (jsTrim m.summary.title)
      | none => if st.gameMode ≠ "" then jsReplaceAllChar ' ' "" (jsTrim st.gameMode) else ""
    let timestamp := jsReplaceAllChar ':' "-" nowIso
    let filename := "threats-" ++ modelTitle ++ "-" ++ timestamp ++ ".md"
    Except.ok ⟨filename,
      formatThreats (threats.map (fun t => enrichThreatWithCategory env t st.gameMode)) dateLocale⟩

/-! ## Concrete fixtures used by witnesses and counterexamples -/

/-- A suit environment with an inert external lookup: nothing is a
suit and display-name resolution is undefined. -/
def envNone : SuitEnv := ⟨fun _ => false, fun _ _ => none⟩

/-- The two-player roster of the spec's owner-resolution example. -/
def rosterAliceBob : MatchData := ⟨[⟨some "Alice"⟩, ⟨some "Bob"⟩]⟩

/-- A gameplay threat with id, title and owner only. -/
def exThreat : IdentifiedThreat :=
  { id := some "t1", title := some "T1", description := none, mitigation := none
    severity := none, type := none, owner := some "1" }

/-- Cell data for the first fixture cell: open threats already flagged. -/
def exData1 : CellDataV2 :=
  { type := some "tm.Actor", name := some "A", description := none, outOfScope := none
    reasonOutOfScope := none, hasOpenThreats := some true, isTrustBoundary := none
    threats := none, isBidirectional := none, isEncrypted := none
    isPublicNetwork := none, protocol := none }

/-- Cell data for the second fixture cell: no open threats. -/
def exData2 : CellDataV2 :=
  { exData1 with name := some "B", hasOpenThreats := some false }

/-- First fixture cell, id `c1`, a node. -/
def exCell1 : CellV2 :=
  { id := "c1", shape := "actor", zIndex := some 1, attrs := none, data := some exData1
    visible := none, position := some ⟨0, 0⟩, size := some ⟨10, 10⟩, source := none
    target := none, vertices := none, connector := none, labels := none }

/-- Second fixture cell, id `c2`, a node. -/
def exCell2 : CellV2 :=
  { exCell1 with id := "c2", data := some exData2 }

/-- A two-cell, one-diagram fixture document titled `My Model`. -/
def exDoc : ThreatDragonModelV2 :=
  { version := "2.5.0", summary := ⟨"My Model", none, none⟩
    detail := ⟨[], [⟨0, "D", "STRIDE", some [exCell1, exCell2]⟩], 1, 0, ""⟩ }

/-- A game state holding one identified threat against cell `c1` of the
first diagram. -/
def exState : GameState :=
  ⟨ModelType.THREAT_DRAGON, GameModeEOP, [some [("c1", [exThreat])]]⟩

/-- The record the merge constructs from `exThreat` in `exState`. -/
def exMergedThreat : ThreatV2 :=
  { description := some "", mitigation := some "", modelType := some "STRIDE"
    severity := some "", status := some "Open", title := some "T1", type := none
    owner := some "Bob", id := some "t1", game := some "m1" }

/-- The fixture document after the merge: the gameplay threat appended
to cell `c1`. -/
def exDocMerged : ThreatDragonModelV2 :=
  { exDoc with detail := { exDoc.detail with diagrams :=
      [⟨0, "D", "STRIDE", some
        [{ exCell1 with data := some { exData1 with
             threats := some [exMergedThreat], hasOpenThreats := some true } },
         exCell2]⟩] } }

/-- The first fixture cell after the merge of `exThreat`. -/
def exCell1Merged : CellV2 :=
  { exCell1 with data := some { exData1 with
      threats := some [exMergedThreat], hasOpenThreats := some true } }

/-- The inner `text.text` value of an attribute bag, when `text` is an
object. -/
def textTextOf (attrs : JAttrs) : Option JValue :=
  match jLookup attrs "text" with
  | some (JValue.vObj o) => jLookup o "text"
  | _ => none

/-- A cell whose explicit label is the empty string while `data.name`
is non-blank. -/
def exCell7 : CellV2 :=
  { id := "c7", shape := "actor", zIndex := some 1
    attrs := some [("text", JValue.vObj [("text", JValue.vStr "")])]
    data := some { exData1 with name := some "N" }, visible := none, position := none
    size := none, source := none, target := none, vertices := none, connector := none
    labels := none }

/-- A node cell whose `attrs.text` is a primitive string: resolving a
display label for it makes the strict-mode JS throw. -/
def exCell9 : CellV2 :=
  { id := "c9", shape := "actor", zIndex := some 1
    attrs := some [("text", JValue.vStr "x")]
    data := some { exData1 with name := some "N" }, visible := none
    position := some ⟨0, 0⟩, size := some ⟨10, 10⟩, source := none, target := none
    vertices := none, connector := none, labels := none }

/-- A diagram holding only `exCell9`. -/
def exDiagram9 : DiagramV2 := ⟨0, "D9", "STRIDE", some [exCell9]⟩

/-- A cell with neither node geometry nor edge endpoints. -/
def exCellUnclassifiable : CellV2 :=
  { id := "c0", shape := "mystery", zIndex := none, attrs := none, data := none
    visible := none, position := none, size := none, source := none, target := none
    vertices := none, connector := none, labels := none }

/-- A diagram holding only the unclassifiable cell. -/
def exDiagramDrop : DiagramV2 := ⟨1, "D0", "STRIDE", some [exCellUnclassifiable]⟩

/-- A cell carrying both node geometry and edge endpoints. -/
def exCell10 : CellV2 :=
  { exCell1 with
    id := "c10"
    source := some ⟨some "c1", none, none, none⟩
    target := some ⟨some "c2", none, none, none⟩ }

/-- A threat whose title is present but blank. -/
def blankTitleThreat : ThreatWithCategory :=
  ⟨{ id := none, title := some "  ", status := none, severity := none, type := none
     description := none, mitigation := none, modelType := none, owner := none
     game := none }, none⟩

/-- A threat with no fields at all. -/
def noTitleThreat : ThreatWithCategory :=
  ⟨{ id := none, title := none, status := none, severity := none, type := none
     description := none, mitigation := none, modelType := none, owner := none
     game := none }, none⟩

/-- The cell at position `(i, j)` of a diagrams list. -/
def cellAtL (ds : List DiagramV2) (i j : Nat) : Option CellV2 :=
  ds[i]?.bind (fun d => (d.cells.getD [])[j]?)

/-- How one merge step may change a cell: the open-threats flag never
falls from `true` to `false` and the threats list only grows at the
end, by records whose status is `Open`. -/
def CellMono (c c' : CellV2) : Prop :=
  (cellHasOpen c = true → cellHasOpen c' = true) ∧
  ∃ ns, cellThreats c' = cellThreats c ++ ns ∧ ∀ t ∈ ns, t.status = some "Open"

/-! ## Helper lemmas -/

/-- `jSet` leaves every other key untouched. -/
theorem jLookup_jSet_ne (o : JAttrs) (k k' : String) (v : JValue) (h : k' ≠ k) :
    jLookup (jSet o k v) k' = jLookup o k' := by
  induction o with
  | nil => simp [jSet, jLookup, show ¬(k = k') from fun hh => h hh.symm]
  | cons kv rest ih =>
    obtain ⟨k₀, v₀⟩ := kv
    by_cases hk : k₀ = k
    · subst hk
      simp [jSet, jLookup, show ¬(k₀ = k') from fun hh => h hh.symm]
    · simp only [jSet, if_neg hk, jLookup]
      by_cases hk' : k₀ = k'
      · simp [hk']
      · simp [hk', ih]

/-- `jSet` makes the written key read back the written value. -/
theorem jLookup_jSet_self (o : JAttrs) (k : String) (v : JValue) :
    jLookup (jSet o k v) k = some v := by
  induction o with
  | nil => simp [jSet, jLookup]
  | cons kv rest ih =>
    obtain ⟨k₀, v₀⟩ := kv
    by_cases hk : k₀ = k
    · subst hk; simp [jSet, jLookup]
    · simp [jSet, hk, jLookup, ih]

/-! ## Theorems for the claims -/

/-- C2.  For every gameplay threat record, flattening substitutes the
fixed defaults for missing optional fields and forces `status = "NA"`;
in particular the record with only `title := "T"` flattens to
`{title: "T", description: "", mitigation: "", severity: "Low",
type: "", status: "NA"}` with `owner` undefined. -/
theorem getThreats_default_substitution
    (mt : ModelType) (gm cid : String) (meta : MatchData) (t : IdentifiedThreat) :
    getThreats ⟨mt, gm, [some [(cid, [t])]]⟩ meta none =
      [{ id := t.id, title := some (t.title.getD ""), status := some "NA",
         severity := some (t.severity.getD "Low"), type := some (t.type.getD ""),
         description := some (t.description.getD ""), mitigation := some (t.mitigation.getD ""),
         modelType := none, owner := resolveThreatOwner meta t.owner, game := none }] ∧
    getThreats ⟨mt, gm, [some [(cid,
        [{ id := none, title := some "T", description := none, mitigation := none,
           severity := none, type := none, owner := none }])]]⟩ meta none =
      [{ id := none, title := some "T", status := some "NA", severity := some "Low",
         type := some "", description := some "", mitigation := some "",
         modelType := none, owner := none, game := none }] :=
  ⟨rfl, rfl⟩

/-- C4.  When the stored model is absent, an image placeholder, or the
game's model type is not a JSON kind, the Threat Dragon export fails
with the 400 client error before any merge: no document body is
produced. -/
theorem downloadThreatDragonModel_rejects_non_json
    (env : SuitEnv) (game : FetchedGame) (nowIso mid : String)
    (h : game.model = none ∨ (∃ e, game.model = some (StoredModel.image e)) ∨
         isJsonModelType game.state.modelType = false) :
    downloadThreatDragonModel env (some mid) game nowIso =
      Except.error ⟨400, "Cannot download model if none is set, maybe the wrong model type has been set?"⟩ := by
  rcases h with h | ⟨e, h⟩ | h
  · simp [downloadThreatDragonModel, h]
  · simp [downloadThreatDragonModel, h]
  · cases hm : game.model with
    | none => simp [downloadThreatDragonModel, hm]
    | some sm =>
      cases sm with
      | image e => simp [downloadThreatDragonModel, hm]
      | doc m => simp [downloadThreatDragonModel, hm, h]

/-- Witness for C4: a match with no stored model is rejected. -/
theorem downloadThreatDragonModel_rejects_non_json_witness :
    downloadThreatDragonModel envNone (some "m1") ⟨exState, rosterAliceBob, none⟩
        "2026-01-02T03:04:05.000Z" =
      Except.error ⟨400, "Cannot download model if none is set, maybe the wrong model type has been set?"⟩ :=
  downloadThreatDragonModel_rejects_non_json envNone ⟨exState, rosterAliceBob, none⟩
    "2026-01-02T03:04:05.000Z" "m1" (Or.inl rfl)

/-- C8.  Owner resolution during flattening maps the player-index
string through the roster: with roster `["Alice", "Bob"]`, `"1"`
resolves to `"Bob"`, `"5"` and an absent owner resolve to nothing, and
any unparsable index string resolves to nothing. -/
theorem owner_resolution :
    (∀ (meta : MatchData) (t : IdentifiedThreat),
      (flattenGameThreat meta t).owner = resolveThreatOwner meta t.owner) ∧
    resolveThreatOwner rosterAliceBob (some "1") = some "Bob" ∧
    resolveThreatOwner rosterAliceBob (some "5") = none ∧
    resolveThreatOwner rosterAliceBob none = none ∧
    (∀ s, jsParseInt s = none → resolveThreatOwner rosterAliceBob (some s) = none) := by
  refine ⟨fun meta t => rfl, rfl, rfl, rfl, fun s h => ?_⟩
  simp [resolveThreatOwner, lookupPlayerName, h]

/-- Witness for C8: the index string `"x"` is unparsable and resolves
to nothing. -/
theorem owner_resolution_witness :
    resolveThreatOwner rosterAliceBob (some "x") = none :=
  owner_resolution.2.2.2.2 "x" rfl

/-- C9, evaluation at the failing input: a node cell whose `attrs.text`
is the primitive string `"x"` while `data.name` is non-blank makes the
adapter throw (the strict-mode property creation on a primitive), so
`toJointGraphJson` is not total on malformed input; a cell with neither
geometry nor endpoints is dropped without error as claimed. -/
theorem toJointGraphJson_throws_on_primitive_text :
    toJointGraphJson exDiagram9 = Except.error () ∧
    (toJointGraphJson exDiagramDrop).map (fun g => g.cells.length) = Except.ok 0 :=
  ⟨rfl, rfl⟩

/-- C1, counterexample: merging one gameplay threat into the fixture
document changes the loaded document's first cell — its `data.threats`
grows from `[]` to the constructed record — so the original document
value is not unchanged after the merge. -/
theorem merge_mutates_loaded_document :
    modelAfterDownload envNone exState rosterAliceBob "m1" exDoc = some exDocMerged ∧
    (cellAt exDoc 0 0).map cellThreats = some [] ∧
    (cellAt exDocMerged 0 0).map cellThreats = some [exMergedThreat] ∧
    (some [exMergedThreat] : Option (List ThreatV2)) ≠ some [] :=
  ⟨rfl, rfl, rfl, by decide⟩

/-- C6, counterexample: with document title `My Model` the Markdown
export filename hyphenates the space (`threats-My-Model-...`), not the
space-removed `threats-MyModel-...` slug the claim states. -/
theorem markdown_filename_hyphenates_title :
    (downloadThreatsMarkdownFile envNone (some "m1")
        ⟨exState, rosterAliceBob, some (StoredModel.doc exDoc)⟩
        "2026-01-02T03:04:05.000Z" "1/2/2026").map (fun d => d.filename) =
      Except.ok "threats-My-Model-2026-01-02T03-04-05.000Z.md" ∧
    "threats-My-Model-2026-01-02T03-04-05.000Z.md" ≠
      "threats-MyModel-2026-01-02T03-04-05.000Z.md" :=
  ⟨rfl, by decide⟩

/-- C6, amended.  The Markdown export filename is
`threats-<slug>-<ISO timestamp with every colon replaced by a hyphen>.md`
where the slug is the trimmed document title with each space replaced
by a hyphen when a structured JSON document exists, else the trimmed
game-mode string with spaces removed, else empty. -/
theorem downloadThreatsMarkdownFile_filename
    (env : SuitEnv) (game : FetchedGame) (nowIso dateLocale mid : String) :
    (downloadThreatsMarkdownFile env (some mid) game nowIso dateLocale).map
        (fun d => d.filename) =
      Except.ok ("threats-" ++
        (match (if isJsonModelType game.state.modelType then
                  match game.model with
                  | some (StoredModel.doc m) => some m
                  | _ => none
                else none) with
         | some m => jsReplaceAllChar ' ' "-" (jsTrim m.summary.title)
         | none =>
           if game.state.gameMode ≠ "" then jsReplaceAllChar ' ' "" (jsTrim game.state.gameMode)
           else "")
        ++ "-" ++ jsReplaceAllChar ':' "-" nowIso ++ ".md") :=
  rfl

/-- The first line of a threat's Markdown block is always the numbered
title line. -/
theorem threatLines_head (t : ThreatWithCategory) (i : Nat) :
    (threatLines t i).head? =
      some (toString (i + 1) ++ ". **"
        ++ escapeMarkdownText ((t.threat.title.map jsTrim).getD "No title given") ++ "**") := by
  unfold threatLines
  cases t.category <;> cases t.threat.severity <;> cases t.threat.owner <;>
    cases t.threat.description <;> cases t.threat.mitigation <;>
      simp [List.head?_append] <;> split <;> simp [List.head?_append]

/-- C5, counterexample: a present but whitespace-only title renders as
the empty bold title `1. ****`, not the `No title given` fallback. -/
theorem formatSingleThreat_blank_title_no_fallback :
    formatSingleThreat blankTitleThreat 0 = "1. ****" ∧
    formatSingleThreat blankTitleThreat 0 ≠ "1. **No title given**" :=
  ⟨rfl, by decide⟩

/-- C5, amended.  The title line shows `No title given` exactly when
the title field is absent; a present title is trimmed (and escaped) and
shown even when blank after trimming. -/
theorem formatSingleThreat_title_line (t : ThreatWithCategory) (i : Nat) :
    (t.threat.title = none →
      (threatLines t i).head? = some (toString (i + 1) ++ ". **" ++ "No title given" ++ "**")) ∧
    (∀ s, t.threat.title = some s →
      (threatLines t i).head? =
        some (toString (i + 1) ++ ". **" ++ escapeMarkdownText (jsTrim s) ++ "**")) := by
  constructor
  · intro h
    rw [threatLines_head, h]
    rfl
  · intro s h
    rw [threatLines_head, h]
    rfl

/-- Witness for C5: a threat with no title at all gets the fallback
title line. -/
theorem formatSingleThreat_title_line_witness :
    (threatLines noTitleThreat 0).head? = some "1. **No title given**" :=
  (formatSingleThreat_title_line noTitleThreat 0).1 rfl

/-- C7, counterexample: with `data.name = "N"` non-blank and the
explicit label slot holding the empty string, the claim's condition
(`text.text` is not a non-empty string) holds, yet the adapter keeps
the empty label and does not write `"N"`. -/
theorem normalizeAttrs_keeps_empty_label :
    getV2CellName exCell7 = "N" ∧
    normalizeAttrs exCell7 = Except.ok [("text", JValue.vObj [("text", JValue.vStr "")])] ∧
    textTextOf [("text", JValue.vObj [("text", JValue.vStr "")])] = some (JValue.vStr "") ∧
    (JValue.vStr "" = JValue.vStr "N" → False) :=
  ⟨rfl, rfl, rfl, fun h => by simp at h⟩

/-- C7, amended.  For cells whose `attrs.text` slot is absent, null or
an object: the adapter copies every other key verbatim, leaves the bag
unchanged when the resolved display name is empty, and otherwise writes
the resolved name into `attrs.text.text` if and only if the current
value of that slot is not a string — an explicit string label, even the
empty string, is never overwritten. -/
theorem normalizeAttrs_label_write (cell : CellV2)
    (hok : ∀ v, jLookup (cell.attrs.getD []) "text" = some v →
      v = JValue.vNull ∨ ∃ o, v = JValue.vObj o) :
    ∃ a, normalizeAttrs cell = Except.ok a ∧
      (∀ k, k ≠ "text" → jLookup a k = jLookup (cell.attrs.getD []) k) ∧
      (getV2CellName cell = "" → a = cell.attrs.getD []) ∧
      (getV2CellName cell ≠ "" →
        textTextOf a =
          match textTextOf (cell.attrs.getD []) with
          | some (JValue.vStr s) => some (JValue.vStr s)
          | _ => some (JValue.vStr (getV2CellName cell))) := by
  unfold normalizeAttrs
  by_cases hname : getV2CellName cell = ""
  · refine ⟨cell.attrs.getD [], ?_, ?_, ?_, ?_⟩
    · simp [hname]
    · intro k _; rfl
    · intro _; rfl
    · intro hc; exact absurd hname hc
  · rw [if_neg hname]
    cases htext : jLookup (cell.attrs.getD []) "text" with
    | none =>
      refine ⟨jSet (cell.attrs.getD []) "text" (JValue.vObj [("text", JValue.vStr (getV2CellName cell))]), rfl, ?_, ?_, ?_⟩
      · intro k hk; exact jLookup_jSet_ne _ _ _ _ hk
      · intro hc; exact absurd hc hname
      · intro _
        simp [textTextOf, jLookup_jSet_self, htext, jLookup]
    | some v =>
      rcases hok v htext with hv | ⟨o, hv⟩
      · subst hv
        refine ⟨jSet (cell.attrs.getD []) "text" (JValue.vObj [("text", JValue.vStr (getV2CellName cell))]), rfl, ?_, ?_, ?_⟩
        · intro k hk; exact jLookup_jSet_ne _ _ _ _ hk
        · intro hc; exact absurd hc hname
        · intro _
          simp [textTextOf, jLookup_jSet_self, htext, jLookup]
      · subst hv
        cases hinner : jLookup o "text" with
        | none =>
          refine ⟨jSet (cell.attrs.getD []) "text" (JValue.vObj (jSet o "text" (JValue.vStr (getV2CellName cell)))), ?_, ?_, ?_, ?_⟩
          · simp [htext, hinner]
          · intro k hk; exact jLookup_jSet_ne _ _ _ _ hk
          · intro hc; exact absurd hc hname
          · intro _
            simp [textTextOf, jLookup_jSet_self, htext, hinner]
        | some w =>
          cases w with
          | vStr s =>
            refine ⟨jSet (cell.attrs.getD []) "text" (JValue.vObj o), ?_, ?_, ?_, ?_⟩
            · simp [htext, hinner]
            · intro k hk; exact jLookup_jSet_ne _ _ _ _ hk
            · intro hc; exact absurd hc hname
            · intro _
              simp [textTextOf, jLookup_jSet_self, htext, hinner]
          | vNum q =>
            refine ⟨jSet (cell.attrs.getD []) "text" (JValue.vObj (jSet o "text" (JValue.vStr (getV2CellName cell)))), ?_, ?_, ?_, ?_⟩
            · simp [htext, hinner]
            · intro k hk; exact jLookup_jSet_ne _ _ _ _ hk
            · intro hc; exact absurd hc hname
            · intro _
              simp [textTextOf, jLookup_jSet_self, htext, hinner]
          | vBool b =>
            refine ⟨jSet (cell.attrs.getD []) "text" (JValue.vObj (jSet o "text" (JValue.vStr (getV2CellName cell)))), ?_, ?_, ?_, ?_⟩
            · simp [htext, hinner]
            · intro k hk; exact jLookup_jSet_ne _ _ _ _ hk
            · intro hc; exact absurd hc hname
            · intro _
              simp [textTextOf, jLookup_jSet_self, htext, hinner]
          | vNull =>
            refine ⟨jSet (cell.attrs.getD []) "text" (JValue.vObj (jSet o "text" (JValue.vStr (getV2CellName cell)))), ?_, ?_, ?_, ?_⟩
            · simp [htext, hinner]
            · intro k hk; exact jLookup_jSet_ne _ _ _ _ hk
            · intro hc; exact absurd hc hname
            · intro _
              simp [textTextOf, jLookup_jSet_self, htext, hinner]
          | vObj o' =>
            refine ⟨jSet (cell.attrs.getD []) "text" (JValue.vObj (jSet o "text" (JValue.vStr (getV2CellName cell)))), ?_, ?_, ?_, ?_⟩
            · simp [htext, hinner]
            · intro k hk; exact jLookup_jSet_ne _ _ _ _ hk
            · intro hc; exact absurd hc hname
            · intro _
              simp [textTextOf, jLookup_jSet_self, htext, hinner]

/-- Witness for C7: a cell with no `attrs` at all gets its non-blank
`data.name` written as the label. -/
theorem normalizeAttrs_label_write_witness :
    ∃ a, normalizeAttrs exCell1 = Except.ok a ∧
      (∀ k, k ≠ "text" → jLookup a k = jLookup (exCell1.attrs.getD []) k) ∧
      (getV2CellName exCell1 = "" → a = exCell1.attrs.getD []) ∧
      (getV2CellName exCell1 ≠ "" →
        textTextOf a =
          match textTextOf (exCell1.attrs.getD []) with
          | some (JValue.vStr s) => some (JValue.vStr s)
          | _ => some (JValue.vStr (getV2CellName exCell1))) :=
  normalizeAttrs_label_write exCell1 (fun v h => by simp [exCell1, jLookup] at h)

/-- C10.  A cell with node geometry is emitted as a node record with
its position and size preserved, regardless of any edge endpoints it
also carries: the node branch wins and the output holds no endpoint,
vertex or label data. -/
theorem v2CellToJointCell_node_precedence (cell : CellV2) (p : PointV2) (s : SizeV2) (a : JAttrs)
    (hp : cell.position = some p) (hs : cell.size = some s)
    (ha : normalizeAttrs cell = Except.ok a) :
    ∃ n : JointNodeCell, v2CellToJointCell cell = Except.ok (some (JointCell.node n)) ∧
      n.position = ⟨p.x, p.y⟩ ∧ n.size = ⟨s.width, s.height⟩ ∧ n.attrs = a := by
  refine ⟨{ id := cell.id, type := mapToJointType cell.shape (cell.data.bind (fun d => d.type)),
            z := cell.zIndex.getD 0, attrs := a, position := ⟨p.x, p.y⟩,
            size := ⟨s.width, s.height⟩,
            description := (cell.data.bind (fun d => d.description)).getD "",
            hasOpenThreats := (cell.data.bind (fun d => d.hasOpenThreats)).getD false,
            outOfScope := (cell.data.bind (fun d => d.outOfScope)).getD false,
            reasonOutOfScope := (cell.data.bind (fun d => d.reasonOutOfScope)).getD "",
            isTrustBoundary := (cell.data.bind (fun d => d.isTrustBoundary)).getD false,
            threats := (cell.data.bind (fun d => d.threats)).getD [],
            visible := cell.visible }, ?_, rfl, rfl, rfl⟩
  unfold v2CellToJointCell
  rw [ha, hp, hs]

/-- Witness for C10: a cell with both geometry and endpoints is emitted
as a node at its position. -/
theorem v2CellToJointCell_node_precedence_witness :
    ∃ n : JointNodeCell, v2CellToJointCell exCell10 = Except.ok (some (JointCell.node n)) ∧
      n.position = ⟨0, 0⟩ ∧ n.size = ⟨10, 10⟩ ∧
      n.attrs = [("text", JValue.vObj [("text", JValue.vStr "A")])] :=
  v2CellToJointCell_node_precedence exCell10 ⟨0, 0⟩ ⟨10, 10⟩
    [("text", JValue.vObj [("text", JValue.vStr "A")])] rfl rfl rfl


/-- `CellMono` is reflexive. -/
theorem cellMono_refl (c : CellV2) : CellMono c c :=
  ⟨fun h => h, [], by simp, by simp⟩

/-- `CellMono` is transitive. -/
theorem cellMono_trans {a b c : CellV2} (h₁ : CellMono a b) (h₂ : CellMono b c) :
    CellMono a c := by
  obtain ⟨ho₁, ns₁, ht₁, hs₁⟩ := h₁
  obtain ⟨ho₂, ns₂, ht₂, hs₂⟩ := h₂
  refine ⟨fun h => ho₂ (ho₁ h), ns₁ ++ ns₂, ?_, ?_⟩
  · rw [ht₂, ht₁, List.append_assoc]
  · intro t ht
    rcases List.mem_append.mp ht with h | h
    · exact hs₁ t h
    · exact hs₂ t h

/-- A successful per-cell merge only grows the threats list by `Open`
records and never clears the open flag. -/
theorem mergeCell_mono (env : SuitEnv) (st : GameState) (meta : MatchData) (mid : String)
    (ts : List IdentifiedThreat) (c c' : CellV2)
    (h : mergeCell env st meta mid ts c = some c') : CellMono c c' := by
  unfold mergeCell at h
  cases hd : c.data with
  | none =>
    simp only [hd] at h
    exact Option.noConfusion h
  | some d =>
    simp only [hd, Option.some.injEq] at h
    subst h
    refine ⟨?_, ts.map (mergedThreatOf env st meta mid), ?_, ?_⟩
    · intro hopen
      simp only [cellHasOpen, hd] at hopen ⊢
      simp [hopen]
    · simp [cellThreats, hd]
    · intro t ht
      rcases List.mem_map.mp ht with ⟨t₀, _, ht₀⟩
      rw [← ht₀]
      rfl

/-- Rewriting the first matching cell relates every position by the
per-cell relation induced by `f` (other positions are unchanged). -/
theorem updateFirstCellM_mono (cid : String) (f : CellV2 → Option CellV2)
    (cs cs' : List CellV2) (hf : ∀ c c', f c = some c' → CellMono c c')
    (h : updateFirstCellM cid f cs = some cs') :
    ∀ (j : Nat) (c : CellV2), cs[j]? = some c → ∃ c', cs'[j]? = some c' ∧ CellMono c c' := by
  induction cs generalizing cs' with
  | nil =>
    simp only [updateFirstCellM, Option.some.injEq] at h
    subst h
    intro j c hc
    simp at hc
  | cons c₀ rest ih =>
    simp only [updateFirstCellM] at h
    by_cases hid : c₀.id = cid
    · rw [if_pos hid] at h
      rcases Option.map_eq_some'.mp h with ⟨c₁, hc₁, hcs⟩
      subst hcs
      intro j c hc
      cases j with
      | zero =>
        simp only [List.getElem?_cons_zero, Option.some.injEq] at hc
        subst hc
        exact ⟨c₁, by simp, hf _ _ hc₁⟩
      | succ j' =>
        simp only [List.getElem?_cons_succ] at hc ⊢
        exact ⟨c, hc, cellMono_refl c⟩
    · rw [if_neg hid] at h
      rcases Option.map_eq_some'.mp h with ⟨rest', hrest, hcs⟩
      subst hcs
      intro j c hc
      cases j with
      | zero =>
        simp only [List.getElem?_cons_zero, Option.some.injEq] at hc
        subst hc
        exact ⟨c₀, by simp, cellMono_refl c₀⟩
      | succ j' =>
        simp only [List.getElem?_cons_succ] at hc ⊢
        exact ih rest' hrest j' c hc

/-- The component fold relates every cell position monotonically. -/
theorem applyComponents_mono (env : SuitEnv) (st : GameState) (meta : MatchData) (mid : String)
    (comps : List (String × List IdentifiedThreat)) (cs cs' : List CellV2)
    (h : applyComponents env st meta mid comps cs = some cs') :
    ∀ (j : Nat) (c : CellV2), cs[j]? = some c → ∃ c', cs'[j]? = some c' ∧ CellMono c c' := by
  induction comps generalizing cs with
  | nil =>
    simp only [applyComponents, Option.some.injEq] at h
    subst h
    exact fun j c hc => ⟨c, hc, cellMono_refl c⟩
  | cons comp rest ih =>
    obtain ⟨cid, ts⟩ := comp
    simp only [applyComponents] at h
    cases hu : updateFirstCellM cid (mergeCell env st meta mid ts) cs with
    | none =>
      simp only [hu] at h
      exact Option.noConfusion h
    | some cs₁ =>
      simp only [hu] at h
      intro j c hc
      obtain ⟨c₁, hc₁, hm₁⟩ :=
        updateFirstCellM_mono cid _ cs cs₁ (fun a b => mergeCell_mono env st meta mid ts a b) hu j c hc
      obtain ⟨c₂, hc₂, hm₂⟩ := ih cs₁ h j c₁ hc₁
      exact ⟨c₂, hc₂, cellMono_trans hm₁ hm₂⟩

/-- The per-diagram merge relates every cell position monotonically. -/
theorem applyDiagram_mono (env : SuitEnv) (st : GameState) (meta : MatchData) (mid : String)
    (comps : List (String × List IdentifiedThreat)) (d d' : DiagramV2)
    (h : applyDiagram env st meta mid comps d = some d') :
    ∀ (j : Nat) (c : CellV2), (d.cells.getD [])[j]? = some c →
      ∃ c', (d'.cells.getD [])[j]? = some c' ∧ CellMono c c' := by
  unfold applyDiagram at h
  cases hcells : d.cells with
  | none =>
    simp only [hcells, Option.some.injEq] at h
    subst h
    intro j c hc
    rw [hcells]
    exact ⟨c, hc, cellMono_refl c⟩
  | some cs =>
    simp only [hcells] at h
    rcases Option.map_eq_some'.mp h with ⟨cs', hcs', hd'⟩
    subst hd'
    intro j c hc
    simp only [hcells, Option.getD_some] at hc
    obtain ⟨c', hc', hm⟩ := applyComponents_mono env st meta mid comps cs cs' hcs' j c hc
    exact ⟨c', by simpa using hc', hm⟩

/-- The slot walk preserves the number of diagrams. -/
theorem mergeSlots_length (env : SuitEnv) (st : GameState) (meta : MatchData) (mid : String)
    (entries : List (Nat × Option (List (String × List IdentifiedThreat))))
    (ds ds' : List DiagramV2) (h : mergeSlots env st meta mid entries ds = some ds') :
    ds'.length = ds.length := by
  induction entries generalizing ds with
  | nil =>
    simp only [mergeSlots, Option.some.injEq] at h
    subst h; rfl
  | cons e rest ih =>
    obtain ⟨k, slot⟩ := e
    cases slot with
    | none => exact ih ds h
    | some comps =>
      simp only [mergeSlots] at h
      cases hk : ds[k]? with
      | none =>
        simp only [hk] at h
        exact ih ds h
      | some d =>
        simp only [hk] at h
        cases ha : applyDiagram env st meta mid comps d with
        | none =>
          simp only [ha] at h
          exact Option.noConfusion h
        | some d' =>
          simp only [ha] at h
          rw [ih (ds.set k d') h]
          exact List.length_set ds k d'

/-- The slot walk relates every cell position of the diagrams list
monotonically. -/
theorem mergeSlots_mono (env : SuitEnv) (st : GameState) (meta : MatchData) (mid : String)
    (entries : List (Nat × Option (List (String × List IdentifiedThreat))))
    (ds ds' : List DiagramV2) (h : mergeSlots env st meta mid entries ds = some ds') :
    ∀ (i j : Nat) (c : CellV2), cellAtL ds i j = some c →
      ∃ c', cellAtL ds' i j = some c' ∧ CellMono c c' := by
  induction entries generalizing ds with
  | nil =>
    simp only [mergeSlots, Option.some.injEq] at h
    subst h
    exact fun i j c hc => ⟨c, hc, cellMono_refl c⟩
  | cons e rest ih =>
    obtain ⟨k, slot⟩ := e
    cases slot with
    | none => exact ih ds h
    | some comps =>
      simp only [mergeSlots] at h
      cases hk : ds[k]? with
      | none =>
        simp only [hk] at h
        exact ih ds h
      | some d =>
        simp only [hk] at h
        cases ha : applyDiagram env st meta mid comps d with
        | none =>
          simp only [ha] at h
          exact Option.noConfusion h
        | some d' =>
          simp only [ha] at h
          intro i j c hc
          by_cases hik : i = k
          · subst hik
            unfold cellAtL at hc
            rw [hk] at hc
            simp only [Option.some_bind] at hc
            obtain ⟨c₁, hc₁, hm₁⟩ := applyDiagram_mono env st meta mid comps d d' ha j c hc
            have hset : cellAtL (ds.set i d') i j = some c₁ := by
              unfold cellAtL
              have hlt : i < ds.length := by
                rcases List.getElem?_eq_some.mp hk with ⟨hlt, _⟩
                exact hlt
              rw [List.getElem?_set_eq_of_lt d' hlt]
              simpa using hc₁
            obtain ⟨c₂, hc₂, hm₂⟩ := ih (ds.set i d') h i j c₁ hset
            exact ⟨c₂, hc₂, cellMono_trans hm₁ hm₂⟩
          · have hset : cellAtL (ds.set k d') i j = some c := by
              unfold cellAtL at hc ⊢
              rw [List.getElem?_set_ne (fun hh => hik hh.symm)]
              exact hc
            exact ih (ds.set k d') h i j c hset

/-- C3.  A successful merge never sets a cell's `hasOpenThreats` from
`true` to `false`, and it only appends constructed records — all with
status `Open` — to the cell's existing threats list, never replacing
it; the diagram count is preserved. -/
theorem mergeIdentifiedThreats_monotone (env : SuitEnv) (st : GameState) (meta : MatchData)
    (mid : String) (m m' : ThreatDragonModelV2)
    (hm : mergeIdentifiedThreats env st meta mid m = some m') :
    m'.detail.diagrams.length = m.detail.diagrams.length ∧
    ∀ (i j : Nat) (c c' : CellV2), cellAt m i j = some c → cellAt m' i j = some c' →
      (cellHasOpen c = true → cellHasOpen c' = true) ∧
      ∃ ns, cellThreats c' = cellThreats c ++ ns ∧ ∀ t ∈ ns, t.status = some "Open" := by
  unfold mergeIdentifiedThreats at hm
  rcases Option.map_eq_some'.mp hm with ⟨ds', hds', hm'⟩
  subst hm'
  constructor
  · exact mergeSlots_length env st meta mid _ _ _ hds'
  · intro i j c c' hc hc'
    obtain ⟨c₀, hc₀, hmono⟩ := mergeSlots_mono env st meta mid _ _ _ hds' i j c hc
    have : some c₀ = some c' := hc₀.symm.trans hc'
    simp only [Option.some.injEq] at this
    subst this
    exact hmono

/-- Witness for C3: in the fixture merge, cell `c1` keeps its open flag
and its threats list grows by the constructed `Open` record. -/
theorem mergeIdentifiedThreats_monotone_witness :
    (cellHasOpen exCell1 = true → cellHasOpen exCell1Merged = true) ∧
    ∃ ns, cellThreats exCell1Merged = cellThreats exCell1 ++ ns ∧
      ∀ t ∈ ns, t.status = some "Open" :=
  (mergeIdentifiedThreats_monotone envNone exState rosterAliceBob "m1" exDoc exDocMerged
    rfl).2 0 0 exCell1 exCell1Merged rfl rfl

/-- A cell whose id is not the updated component id is untouched. -/
theorem updateFirstCellM_frame (cid : String) (f : CellV2 → Option CellV2)
    (cs cs' : List CellV2) (h : updateFirstCellM cid f cs = some cs') :
    ∀ (j : Nat) (c : CellV2), cs[j]? = some c → c.id ≠ cid → cs'[j]? = some c := by
  induction cs generalizing cs' with
  | nil =>
    simp only [updateFirstCellM, Option.some.injEq] at h
    subst h
    intro j c hc _
    exact hc
  | cons c₀ rest ih =>
    simp only [updateFirstCellM] at h
    by_cases hid : c₀.id = cid
    · rw [if_pos hid] at h
      rcases Option.map_eq_some'.mp h with ⟨c₁, _, hcs⟩
      subst hcs
      intro j c hc hne
      cases j with
      | zero =>
        simp only [List.getElem?_cons_zero, Option.some.injEq] at hc
        subst hc
        exact absurd hid hne
      | succ j' =>
        simp only [List.getElem?_cons_succ] at hc ⊢
        exact hc
    · rw [if_neg hid] at h
      rcases Option.map_eq_some'.mp h with ⟨rest', hrest, hcs⟩
      subst hcs
      intro j c hc hne
      cases j with
      | zero =>
        simp only [List.getElem?_cons_zero, Option.some.injEq] at hc
        subst hc
        simp
      | succ j' =>
        simp only [List.getElem?_cons_succ] at hc ⊢
        exact ih rest' hrest j' c hc hne

/-- A cell whose id appears in no component entry is untouched by the
component fold. -/
theorem applyComponents_frame (env : SuitEnv) (st : GameState) (meta : MatchData) (mid : String)
    (comps : List (String × List IdentifiedThreat)) (cs cs' : List CellV2)
    (h : applyComponents env st meta mid comps cs = some cs') :
    ∀ (j : Nat) (c : CellV2), cs[j]? = some c → (∀ ts, (c.id, ts) ∉ comps) →
      cs'[j]? = some c := by
  induction comps generalizing cs with
  | nil =>
    simp only [applyComponents, Option.some.injEq] at h
    subst h
    intro j c hc _
    exact hc
  | cons comp rest ih =>
    obtain ⟨cid, ts⟩ := comp
    simp only [applyComponents] at h
    cases hu : updateFirstCellM cid (mergeCell env st meta mid ts) cs with
    | none =>
      simp only [hu] at h
      exact Option.noConfusion h
    | some cs₁ =>
      simp only [hu] at h
      intro j c hc hnot
      have hne : c.id ≠ cid := by
        intro hh
        exact hnot ts (by rw [hh]; exact List.mem_cons_self _ _)
      have hc₁ : cs₁[j]? = some c := updateFirstCellM_frame cid _ cs cs₁ hu j c hc hne
      exact ih cs₁ h j c hc₁ (fun ts' hmem => hnot ts' (List.mem_cons_of_mem _ hmem))

/-- A cell whose id appears in no component entry is untouched by the
per-diagram merge. -/
theorem applyDiagram_frame (env : SuitEnv) (st : GameState) (meta : MatchData) (mid : String)
    (comps : List (String × List IdentifiedThreat)) (d d' : DiagramV2)
    (h : applyDiagram env st meta mid comps d = some d') :
    ∀ (j : Nat) (c : CellV2), (d.cells.getD [])[j]? = some c →
      (∀ ts, (c.id, ts) ∉ comps) → (d'.cells.getD [])[j]? = some c := by
  unfold applyDiagram at h
  cases hcells : d.cells with
  | none =>
    simp only [hcells, Option.some.injEq] at h
    subst h
    intro j c hc _
    rw [hcells]
    exact hc
  | some cs =>
    simp only [hcells] at h
    rcases Option.map_eq_some'.mp h with ⟨cs', hcs', hd'⟩
    subst hd'
    intro j c hc hnot
    simp only [hcells, Option.getD_some] at hc
    simpa using applyComponents_frame env st meta mid comps cs cs' hcs' j c hc hnot

/-- A cell untargeted by every slot entry for its diagram position is
untouched by the slot walk. -/
theorem mergeSlots_frame (env : SuitEnv) (st : GameState) (meta : MatchData) (mid : String)
    (entries : List (Nat × Option (List (String × List IdentifiedThreat))))
    (ds ds' : List DiagramV2) (h : mergeSlots env st meta mid entries ds = some ds') :
    ∀ (i j : Nat) (c : CellV2), cellAtL ds i j = some c →
      (∀ comps ts, (i, some comps) ∈ entries → (c.id, ts) ∉ comps) →
      cellAtL ds' i j = some c := by
  induction entries generalizing ds with
  | nil =>
    simp only [mergeSlots, Option.some.injEq] at h
    subst h
    intro i j c hc _
    exact hc
  | cons e rest ih =>
    obtain ⟨k, slot⟩ := e
    cases slot with
    | none =>
      intro i j c hc hnot
      exact ih ds h i j c hc
        (fun comps ts hmem => hnot comps ts (List.mem_cons_of_mem _ hmem))
    | some comps₀ =>
      simp only [mergeSlots] at h
      cases hk : ds[k]? with
      | none =>
        simp only [hk] at h
        intro i j c hc hnot
        exact ih ds h i j c hc
          (fun comps ts hmem => hnot comps ts (List.mem_cons_of_mem _ hmem))
      | some d =>
        simp only [hk] at h
        cases ha : applyDiagram env st meta mid comps₀ d with
        | none =>
          simp only [ha] at h
          exact Option.noConfusion h
        | some d' =>
          simp only [ha] at h
          intro i j c hc hnot
          have hrest : ∀ comps ts, (i, some comps) ∈ rest → (c.id, ts) ∉ comps :=
            fun comps ts hmem => hnot comps ts (List.mem_cons_of_mem _ hmem)
          by_cases hik : i = k
          · subst hik
            have hnot₀ : ∀ ts, (c.id, ts) ∉ comps₀ :=
              fun ts => hnot comps₀ ts (List.mem_cons_self _ _)
            unfold cellAtL at hc
            rw [hk] at hc
            simp only [Option.some_bind] at hc
            have hc' : (d'.cells.getD [])[j]? = some c :=
              applyDiagram_frame env st meta mid comps₀ d d' ha j c hc hnot₀
            have hset : cellAtL (ds.set i d') i j = some c := by
              unfold cellAtL
              have hlt : i < ds.length := by
                rcases List.getElem?_eq_some.mp hk with ⟨hlt, _⟩
                exact hlt
              rw [List.getElem?_set_eq_of_lt d' hlt]
              simpa using hc'
            exact ih (ds.set i d') h i j c hset hrest
          · have hset : cellAtL (ds.set k d') i j = some c := by
              unfold cellAtL at hc ⊢
              rw [List.getElem?_set_ne (fun hh => hik hh.symm)]
              exact hc
            exact ih (ds.set k d') h i j c hset hrest

/-- C1, amended.  The merge is performed by mutating the loaded
document in place, so the served body and the post-handler document are
the merged value, not the original; the mutation is confined to the
targeted cells: every cell whose id is not listed in the
identified-threats entry for its diagram position is unchanged. -/
theorem mergeIdentifiedThreats_frame (env : SuitEnv) (st : GameState) (meta : MatchData)
    (mid : String) (m m' : ThreatDragonModelV2)
    (hm : modelAfterDownload env st meta mid m = some m')
    (i j : Nat) (c : CellV2) (hc : cellAt m i j = some c)
    (hnt : ∀ comps ts, st.identifiedThreats[i]? = some (some comps) → (c.id, ts) ∉ comps) :
    cellAt m' i j = some c := by
  unfold modelAfterDownload mergeIdentifiedThreats at hm
  rcases Option.map_eq_some'.mp hm with ⟨ds', hds', hm'⟩
  subst hm'
  exact mergeSlots_frame env st meta mid _ _ _ hds' i j c hc
    (fun comps ts hmem => hnt comps ts (List.mk_mem_enum_iff_getElem?.mp hmem))

/-- Witness for C1: in the fixture merge, the untargeted cell `c2` is
unchanged. -/
theorem mergeIdentifiedThreats_frame_witness :
    cellAt exDocMerged 0 1 = some exCell2 :=
  mergeIdentifiedThreats_frame envNone exState rosterAliceBob "m1" exDoc exDocMerged rfl
    0 1 exCell2 rfl
    (by
      intro comps ts hcomps
      have h2 : some (some [("c1", [exThreat])]) = some (some comps) := hcomps
      simp only [Option.some.injEq] at h2
      subst h2
      simp [exCell2, exCell1])
